import Mathlib

/-!
Verification of the Dioptas colormap range/gradient control subsystem.

This file gives a shallow embedding of the two source files that carry the
algorithmic content of the subsystem:

* `src/dioptas/widgets/plot_widgets/utils.py` — the pure auto-level engine
  (`weighted_average_std`, `_default_auto_level`, `_minmax_auto_level`,
  `_mean3std_auto_level`, `auto_level`);
* `src/dioptas/widgets/plot_widgets/ColormapDialog.py` — the stateful
  `ColormapDialog` (range state, gradient registry/selector, normalization
  selector, autoscale requests).

Modelling conventions:

* numpy float arrays become `List α` for a `LinearOrderedField α`; the float
  literal `0.996` is modelled as the exact rational `996/1000` and `0.5` as
  `1/2` (floating-point rounding is outside the model);
* `np.sqrt` is passed as an explicit function parameter `sq : α → α`; claims
  about `mean3std` instantiate it with `Real.sqrt` at `α := ℝ`, or constrain
  it by the hypotheses `0 ≤ sq v` / `sq v ^ 2 = v` that characterize a square
  root;
* Python exceptions (`raise ValueError`) become `Option`/`Except` results;
* out-of-range numpy indexing (e.g. `hist_x[-2]` on a length-1 array raises
  `IndexError`) is kept out of scope by the length hypotheses of the theorems;
  the embedding uses `List.getD` with default `0` at those spots;
* the Qt widgets backing `ColormapDialog` (combo boxes, line edits) are
  modelled by explicit state records; a combo box operation returns the new
  combo state together with the list of `currentIndexChanged` indices it
  emitted, and the dialog routes those emissions through the connected
  handlers exactly as the Python code wires them.
-/

namespace Dioptas

variable {α : Type} [LinearOrderedField α]

/-! ### List helpers shared by the embedding (running sum, min/max of a numpy array) -/

/-- Running sum with accumulator; `cumsumAux acc ys` is `np.cumsum` shifted by `acc`. -/
def cumsumAux (acc : α) : List α → List α
  | [] => []
  | y :: t => (acc + y) :: cumsumAux (acc + y) t

/-- `np.cumsum`: list of partial sums. -/
def cumsum (ys : List α) : List α := cumsumAux 0 ys

/-- `np.mean`: arithmetic mean of a list. -/
def mean (l : List α) : α := l.sum / (l.length : α)

/-- `np.max` on a non-empty array (`0` placeholder for the empty case, which
numpy rejects and the theorems exclude by hypothesis). -/
def listMax : List α → α
  | [] => 0
  | x :: t => t.foldl max x

/-- `np.min` / `np.nanmin` on a non-empty array (the model carries no NaNs,
so `nanmin` coincides with `min`). -/
def listMin : List α → α
  | [] => 0
  | x :: t => t.foldl min x

theorem cumsumAux_length (acc : α) (ys : List α) :
    (cumsumAux acc ys).length = ys.length := by
  induction ys generalizing acc with
  | nil => rfl
  | cons y t ih => simp [cumsumAux, ih]

theorem cumsum_length (ys : List α) : (cumsum ys).length = ys.length :=
  cumsumAux_length 0 ys

theorem cumsumAux_getD (acc : α) (ys : List α) (i : ℕ) (hi : i < ys.length) :
    (cumsumAux acc ys).getD i 0 = acc + (ys.take (i + 1)).sum := by
  induction ys generalizing acc i with
  | nil => simp at hi
  | cons y t ih =>
    cases i with
    | zero => simp [cumsumAux]
    | succ j =>
      simp only [List.length_cons, Nat.succ_lt_succ_iff] at hi
      simp only [cumsumAux, List.getD_cons_succ, List.take_succ_cons, List.sum_cons,
        ih (acc + y) j hi, add_assoc]
      have h2 : j + (1 + 1) = (j + 1) + 1 := by omega
      rw [h2, List.take_succ_cons, List.sum_cons]

theorem cumsum_getD (ys : List α) (i : ℕ) (hi : i < ys.length) :
    (cumsum ys).getD i 0 = (ys.take (i + 1)).sum := by
  simpa using cumsumAux_getD 0 ys i hi

theorem foldl_max_le (l : List α) (x : α) :
    x ≤ l.foldl max x ∧ ∀ y ∈ l, y ≤ l.foldl max x := by
  induction l generalizing x with
  | nil => simp
  | cons a t ih =>
    obtain ⟨h1, h2⟩ := ih (max x a)
    refine ⟨le_trans (le_max_left x a) h1, ?_⟩
    intro y hy
    rcases List.mem_cons.mp hy with rfl | hy
    · exact le_trans (le_max_right x y) h1
    · exact h2 y hy

theorem foldl_max_mem (l : List α) (x : α) : l.foldl max x ∈ x :: l := by
  induction l generalizing x with
  | nil => simp
  | cons a t ih =>
    have h := ih (max x a)
    rcases List.mem_cons.mp h with h | h
    · rcases max_choice x a with h' | h' <;> rw [List.foldl_cons, h, h']
      · exact List.mem_cons_self _ _
      · exact List.mem_cons_of_mem _ (List.mem_cons_self _ _)
    · exact List.mem_cons_of_mem _ (List.mem_cons_of_mem _ h)

theorem listMax_mem (l : List α) (hl : l ≠ []) : listMax l ∈ l := by
  cases l with
  | nil => exact absurd rfl hl
  | cons a t => exact foldl_max_mem t a

theorem le_listMax (l : List α) (y : α) (hy : y ∈ l) : y ≤ listMax l := by
  cases l with
  | nil => simp at hy
  | cons a t =>
    rcases List.mem_cons.mp hy with rfl | hy
    · exact (foldl_max_le t y).1
    · exact (foldl_max_le t a).2 y hy

theorem le_foldl_min (l : List α) (x : α) :
    l.foldl min x ≤ x ∧ ∀ y ∈ l, l.foldl min x ≤ y := by
  induction l generalizing x with
  | nil => simp
  | cons a t ih =>
    obtain ⟨h1, h2⟩ := ih (min x a)
    refine ⟨le_trans h1 (min_le_left x a), ?_⟩
    intro y hy
    rcases List.mem_cons.mp hy with rfl | hy
    · exact le_trans h1 (min_le_right x y)
    · exact h2 y hy

theorem foldl_min_mem (l : List α) (x : α) : l.foldl min x ∈ x :: l := by
  induction l generalizing x with
  | nil => simp
  | cons a t ih =>
    have h := ih (min x a)
    rcases List.mem_cons.mp h with h | h
    · rcases min_choice x a with h' | h' <;> rw [List.foldl_cons, h, h']
      · exact List.mem_cons_self _ _
      · exact List.mem_cons_of_mem _ (List.mem_cons_self _ _)
    · exact List.mem_cons_of_mem _ (List.mem_cons_of_mem _ h)

theorem listMin_mem (l : List α) (hl : l ≠ []) : listMin l ∈ l := by
  cases l with
  | nil => exact absurd rfl hl
  | cons a t => exact foldl_min_mem t a

theorem listMin_le (l : List α) (y : α) (hy : y ∈ l) : listMin l ≤ y := by
  cases l with
  | nil => simp at hy
  | cons a t =>
    rcases List.mem_cons.mp hy with rfl | hy
    · exact (le_foldl_min t y).1
    · exact (le_foldl_min t a).2 y hy

/-! ### Embedding of `src/dioptas/widgets/plot_widgets/utils.py` -/

/-- `weighted_average_std`, first component: `np.average(a, weights=weights)`. -/
def weighted_average (a weights : List α) : α :=
  (List.zipWith (· * ·) weights a).sum / weights.sum

/-- `weighted_average_std`, variance before the square root:
`np.sum(weights * (a - mean) ** 2) / sum_of_weights`. -/
def weighted_variance (a weights : List α) : α :=
  let m := weighted_average a weights
  (List.zipWith (fun w x => w * (x - m) ^ 2) weights a).sum / weights.sum

/-- `weighted_average_std(a, weights)`: weighted average and weighted standard
deviation. `np.sqrt` is the explicit parameter `sq`. -/
def weighted_average_std (a weights : List α) (sq : α → α) : α × α :=
  (weighted_average a weights, sq (weighted_variance a weights))

/-- `_default_auto_level(hist_x, hist_y)`: colormap range from a histogram,
cumulative-count saturation policy.  Direct transcription of the Python body:
cumulative sums, `np.where` of cumulated counts below `0.996 * total`, mean of
the first two edges, positive-edge raise, and the half-max saturation
fallback. -/
def default_auto_level (hist_x hist_y : List α) : α × α :=
  let hist_y_cumsum := cumsum hist_y
  let hist_y_sum := hist_y.sum
  let max_ind := (List.range hist_y_cumsum.length).filter
    (fun i => decide (hist_y_cumsum.getD i 0 < (996 / 1000 : α) * hist_y_sum))
  let min_level0 := mean (hist_x.take 2)
  let max_level :=
    match max_ind.getLast? with
    | some i => hist_x.getD i 0
    | none => (1 / 2 : α) * listMax hist_x
  let positives := hist_x.filter (fun x => decide (0 < x))
  let min_level :=
    if 0 < positives.length then max min_level0 (listMin positives) else min_level0
  (min_level, max_level)

/-- `_minmax_auto_level(hist_x, hist_y)`: `(hist_x[0], hist_x[-1] + bin_size)`
with `bin_size = hist_x[-1] - hist_x[-2]`. -/
def minmax_auto_level (hist_x hist_y : List α) : α × α :=
  let bin_size := hist_x.getD (hist_x.length - 1) 0 - hist_x.getD (hist_x.length - 2) 0
  (hist_x.getD 0 0, hist_x.getD (hist_x.length - 1) 0 + bin_size)

/-- `_mean3std_auto_level(hist_x, hist_y)`: weighted mean ± 3 × weighted std,
clipped to the `_minmax_auto_level` bounds. -/
def mean3std_auto_level (hist_x hist_y : List α) (sq : α → α) : α × α :=
  let ms := weighted_average_std hist_x hist_y sq
  let mm := minmax_auto_level hist_x hist_y
  (max (ms.1 - 3 * ms.2) mm.1, min (ms.1 + 3 * ms.2) mm.2)

/-- `auto_level(hist_x, hist_y, mode)`: mode dispatch; `none` models the
`raise ValueError(f'Unsupported mode: ...')` branch. -/
def auto_level (hist_x hist_y : List α) (mode : String) (sq : α → α) :
    Option (α × α) :=
  if mode = "default" then some (default_auto_level hist_x hist_y)
  else if mode = "minmax" then some (minmax_auto_level hist_x hist_y)
  else if mode = "mean3std" then some (mean3std_auto_level hist_x hist_y sq)
  else none

/-! ### Embedding of `src/dioptas/widgets/plot_widgets/ColormapDialog.py`

The Qt collaborators are modelled explicitly:

* a pyqtgraph gradient dict `{'mode': ..., 'ticks': ...}` becomes the
  `Gradient` structure (tick positions are rationals, colors RGBA naturals);
  Python's `==` on these dicts is structural equality, i.e. `DecidableEq`;
* a `QComboBox` becomes `ComboBox`: an ordered item list (display text +
  user data), a current index (`-1` meaning no selection, as in Qt), and the
  `blockSignals` flag.  Each operation returns the updated combo box and the
  list of indices for which `currentIndexChanged` fired, in order.  Inserting
  an item in front of the current one keeps the current *item* and therefore
  shifts `currentIndex`, emitting `currentIndexChanged` (this is the behavior
  the source works around with `blockSignals`);
* a `QLineEdit` holding numeric text becomes `Option α`: `some v` for text
  that the validator's locale parses to `v`, `none` for unparseable text.
  Formatting a stored number and parsing it back is taken as the identity
  (locale round-tripping is outside the model);
* the three dialog signals become event logs carried in the state. -/

/-- A pyqtgraph gradient descriptor: `{'mode': str, 'ticks': [(pos, rgba)]}`. -/
structure Gradient where
  mode : String
  ticks : List (ℚ × (ℕ × ℕ × ℕ × ℕ))
deriving DecidableEq

/-- One `QComboBox` entry: display text plus user data. -/
structure ComboItem (β : Type) where
  text : String
  data : β
deriving DecidableEq

/-- A `QComboBox`: items, current index (`-1` = no selection), signal block flag. -/
structure ComboBox (β : Type) where
  items : List (ComboItem β)
  currentIndex : Int
  blocked : Bool
deriving DecidableEq

namespace ComboBox

variable {β : Type}

/-- `QComboBox.setCurrentIndex`: change the index, emitting
`currentIndexChanged` when it actually changes and signals are not blocked. -/
def setCurrentIndex (c : ComboBox β) (i : Int) : ComboBox β × List Int :=
  if i = c.currentIndex then (c, [])
  else ({ c with currentIndex := i }, if c.blocked then [] else [i])

/-- `QComboBox.insertItem(0, ...)`: prepend an item.  The current item is
preserved, so a valid `currentIndex` shifts by one (with a
`currentIndexChanged` emission when unblocked); inserting into an empty box
selects the new item. -/
def insertItemAtZero (c : ComboBox β) (item : ComboItem β) : ComboBox β × List Int :=
  let items := item :: c.items
  if c.items.isEmpty then
    ({ c with items := items, currentIndex := 0 }, if c.blocked then [] else [0])
  else if 0 ≤ c.currentIndex then
    ({ c with items := items, currentIndex := c.currentIndex + 1 },
      if c.blocked then [] else [c.currentIndex + 1])
  else ({ c with items := items }, [])

/-- `QComboBox.findText` (index of first item with the given text, `-1` if absent). -/
def findText (c : ComboBox β) (t : String) : Int :=
  match c.items.findIdx? (fun it => it.text = t) with
  | some i => (i : Int)
  | none => -1

/-- `QComboBox.setCurrentText` on a non-editable box: select the first item
with that text; do nothing when the text is not present. -/
def setCurrentText (c : ComboBox β) (t : String) : ComboBox β × List Int :=
  let i := findText c t
  if 0 ≤ i then setCurrentIndex c i else (c, [])

/-- `QComboBox.findData` (index of first item with the given data, `-1` if absent). -/
def findData [DecidableEq β] (c : ComboBox β) (d : β) : Int :=
  match c.items.findIdx? (fun it => it.data = d) with
  | some i => (i : Int)
  | none => -1

/-- `QComboBox.currentData`: data of the current item, `none` when there is
no valid selection. -/
def currentData (c : ComboBox β) : Option β :=
  if 0 ≤ c.currentIndex then (c.items.get? c.currentIndex.toNat).map (·.data)
  else none

/-- `QComboBox.itemData(i)` for the handlers: data at an emitted index. -/
def itemData (c : ComboBox β) (i : Int) : Option β :=
  if 0 ≤ i then (c.items.get? i.toNat).map (·.data) else none

end ComboBox

/-- The state of a `ColormapDialog`: the two combo boxes, the two numeric
line edits, the stored histogram, the reset-mode combo box, and the logs of
the three dialog signals (`sigRangeChanged`, `sigCurrentGradientChanged`,
`sigCurrentNormalizationChanged`), in emission order. -/
structure DialogState (α : Type) where
  gradientCombo : ComboBox Gradient
  normalizationCombo : ComboBox String
  minText : Option α
  maxText : Option α
  histogram : Option (List α × List α)
  modeCombo : ComboBox String
  sigRange : List (α × α)
  sigGradient : List Gradient
  sigNormalization : List String
deriving DecidableEq

namespace DialogState

/-- `_gradientComboBoxCurrentIndexChanged`, folded over a combo operation's
emissions: for each emitted index `i`, `if index < 0: return` else emit
`sigCurrentGradientChanged(itemData(index))`. -/
def routeGradient (s : DialogState α) (c : ComboBox Gradient) (idxs : List Int) :
    DialogState α :=
  { s with
    gradientCombo := c
    sigGradient := s.sigGradient ++ idxs.filterMap (fun i => c.itemData i) }

/-- `_normalizationComboBoxCurrentIndexChanged`, same routing for the
normalization combo box. -/
def routeNormalization (s : DialogState α) (c : ComboBox String) (idxs : List Int) :
    DialogState α :=
  { s with
    normalizationCombo := c
    sigNormalization := s.sigNormalization ++ idxs.filterMap (fun i => c.itemData i) }

/-- The four fixed normalization entries added in `ColormapDialog.__init__`. -/
def normalizationItems : List (ComboItem String) :=
  [⟨"Linear", "linear"⟩, ⟨"Logarithmic", "log"⟩,
   ⟨"Square root", "sqrt"⟩, ⟨"Arcsinh", "arcsinh"⟩]

/-- The three fixed reset-mode entries added in `ColormapDialog.__init__`. -/
def modeItems : List (ComboItem String) :=
  [⟨"Default", "default"⟩, ⟨"Min/Max", "minmax"⟩, ⟨"Mean±3 Std", "mean3std"⟩]

/-- `ColormapDialog.__init__`: gradient presets (the pyqtgraph `Gradients`
table, passed as a parameter) are added with capitalized names; both fixed
combo boxes start at index 0; line edits start empty (unparseable); no
histogram; empty signal logs.  All `addItem` calls happen before the signal
connections, so construction emits nothing. -/
def init (α : Type) (presets : List (String × Gradient)) : DialogState α where
  gradientCombo :=
    { items := presets.map (fun p => ⟨p.1.capitalize, p.2⟩)
      currentIndex := if presets.isEmpty then -1 else 0
      blocked := false }
  normalizationCombo := { items := normalizationItems, currentIndex := 0, blocked := false }
  minText := none
  maxText := none
  histogram := none
  modeCombo := { items := modeItems, currentIndex := 0, blocked := false }
  sigRange := []
  sigGradient := []
  sigNormalization := []

/-- `ColormapDialog.setCurrentGradient(gradient)`: scan the preset table for a
structural match (`mode` and `ticks` equality); on a match select that preset
by capitalized name; otherwise insert a `'Custom'` item at index 0 with
signals blocked, then select index 0. -/
def setCurrentGradient (presets : List (String × Gradient)) (s : DialogState α)
    (gradient : Gradient) : DialogState α :=
  match presets.find?
      (fun p => decide (gradient.mode = p.2.mode ∧ gradient.ticks = p.2.ticks)) with
  | some p =>
    let r := s.gradientCombo.setCurrentText p.1.capitalize
    routeGradient s r.1 r.2
  | none =>
    let wasBlocked := s.gradientCombo.blocked
    let c0 := { s.gradientCombo with blocked := true }
    let r1 := c0.insertItemAtZero ⟨"Custom", gradient⟩
    let c2 := { r1.1 with blocked := wasBlocked }
    let r2 := c2.setCurrentIndex 0
    routeGradient s r2.1 r2.2

/-- `ColormapDialog.getCurrentGradient()`. -/
def getCurrentGradient (s : DialogState α) : Option Gradient :=
  s.gradientCombo.currentData

/-- `ColormapDialog.setCurrentNormalization(normalization)`: `findData`, raise
`ValueError` (modelled as `Except.error`) when absent — raising happens before
any mutation — else `setCurrentIndex`. -/
def setCurrentNormalization (s : DialogState α) (normalization : String) :
    Except String (DialogState α) :=
  let index := s.normalizationCombo.findData normalization
  if index < 0 then Except.error ("Unsupported normalization: " ++ normalization)
  else
    let r := s.normalizationCombo.setCurrentIndex index
    Except.ok (routeNormalization s r.1 r.2)

/-- The dialog state after `setCurrentNormalization` returns or raises: a
raised `ValueError` leaves the Python object untouched, so the state is the
input state. -/
def setCurrentNormalizationStep (s : DialogState α) (normalization : String) :
    DialogState α :=
  match setCurrentNormalization s normalization with
  | Except.ok t => t
  | Except.error _ => s

/-- `ColormapDialog.getCurrentNormalization()`. -/
def getCurrentNormalization (s : DialogState α) : Option String :=
  s.normalizationCombo.currentData

/-- `ColormapDialog.getRange()`: parse the min edit, falling back to `1`;
parse the max edit, falling back to the minimum. -/
def getRange (s : DialogState α) : α × α :=
  let minimum : α := match s.minText with | some v => v | none => 1
  let maximum : α := match s.maxText with | some v => v | none => minimum
  (minimum, maximum)

/-- `ColormapDialog.setRange(minimum, maximum)`: swap an inverted pair, return
silently when the ordered pair equals the stored one, otherwise write both
texts and run `_rangeChanged`.  `_rangeChanged` is inlined here: right after
the two `setText` calls `getRange` returns exactly the ordered pair just
stored, so its `maximum < minimum` branch is unreachable and it emits
`sigRangeChanged(minimum, maximum)`. -/
def setRange (s : DialogState α) (minimum maximum : α) : DialogState α :=
  let p := if maximum < minimum then (maximum, minimum) else (minimum, maximum)
  if p = getRange s then s
  else
    { s with
      minText := some p.1
      maxText := some p.2
      sigRange := s.sigRange ++ [(p.1, p.2)] }

/-- `ColormapDialog.setDataHistogram(counts, bins)`. -/
def setDataHistogram (s : DialogState α) (counts bins : Option (List α)) :
    DialogState α :=
  match counts, bins with
  | some c, some b => { s with histogram := some (c, b) }
  | _, _ => { s with histogram := none }

/-- `ColormapDialog._autoscaleRequested`: no-op without a histogram, else read
the mode from the reset-mode combo box, run `auto_level(bins, counts, mode)`
— whose `ValueError` (`Except.error` here) propagates before `setRange` runs —
and forward the result to `setRange`. -/
def autoscaleRequested (s : DialogState α) (sq : α → α) :
    Except String (DialogState α) :=
  match s.histogram with
  | none => Except.ok s
  | some hg =>
    match s.modeCombo.currentData with
    | none => Except.error "Unsupported mode: None"
    | some mode =>
      match auto_level hg.2 hg.1 mode sq with
      | none => Except.error ("Unsupported mode: " ++ mode)
      | some r => Except.ok (setRange s r.1 r.2)

/-- The dialog state after `_autoscaleRequested` returns or raises: the
`ValueError` from `auto_level` propagates before any mutation, so on error the
state is the input state. -/
def autoscaleStep (s : DialogState α) (sq : α → α) : DialogState α :=
  match autoscaleRequested s sq with
  | Except.ok t => t
  | Except.error _ => s

/-- Number of `'Custom'` entries in the gradient registry. -/
def customCount (s : DialogState α) : ℕ :=
  (s.gradientCombo.items.filter (fun it => it.text = "Custom")).length

end DialogState

/-! ### Facts about sorted edge lists and weighted averages -/

theorem sorted_getD_lt (xs : List α) (hs : xs.Sorted (· < ·)) (i j : ℕ)
    (hij : i < j) (hj : j < xs.length) :
    xs.getD i 0 < xs.getD j 0 := by
  have hi : i < xs.length := lt_trans hij hj
  rw [List.getD_eq_getElem xs 0 hi, List.getD_eq_getElem xs 0 hj]
  exact List.pairwise_iff_getElem.mp hs i j hi hj hij

theorem sorted_getD_bounds (xs : List α) (hs : xs.Sorted (· < ·)) {x : α}
    (hx : x ∈ xs) :
    xs.getD 0 0 ≤ x ∧ x ≤ xs.getD (xs.length - 1) 0 := by
  obtain ⟨i, hi, rfl⟩ := List.mem_iff_getElem.mp hx
  have h0 : 0 < xs.length := lt_of_le_of_lt (Nat.zero_le i) hi
  have hl : xs.length - 1 < xs.length := by omega
  constructor
  · rw [List.getD_eq_getElem xs 0 h0]
    rcases Nat.eq_zero_or_pos i with rfl | hpos
    · exact le_refl _
    · exact le_of_lt (List.pairwise_iff_getElem.mp hs 0 i h0 hi hpos)
  · rw [List.getD_eq_getElem xs 0 hl]
    rcases Nat.lt_or_ge i (xs.length - 1) with hlt | hge
    · exact le_of_lt (List.pairwise_iff_getElem.mp hs i (xs.length - 1) hi hl hlt)
    · have hieq : i = xs.length - 1 := by omega
      subst hieq
      exact le_refl _

theorem headD_eq_getD (l : List α) : l.headD 0 = l.getD 0 0 := by
  cases l <;> rfl

theorem getLastD_eq_getD (l : List α) : l.getLastD 0 = l.getD (l.length - 1) 0 := by
  rw [List.getLastD_eq_getLast?, List.getLast?_eq_getElem?, List.getD_eq_getD_get?,
    List.get?_eq_getElem?]

theorem dropLast_getLastD_eq_getD (l : List α) (h2 : 2 ≤ l.length) :
    l.dropLast.getLastD 0 = l.getD (l.length - 2) 0 := by
  rw [getLastD_eq_getD, List.length_dropLast]
  have h1 : l.length - 1 - 1 = l.length - 2 := by omega
  rw [h1]
  have hd : l.length - 2 < l.dropLast.length := by
    rw [List.length_dropLast]; omega
  have hl : l.length - 2 < l.length := by omega
  rw [List.getD_eq_getElem _ 0 hd, List.getD_eq_getElem _ 0 hl,
    List.getElem_dropLast]

theorem sum_zipWith_le_mul (ys xs : List α) (b : α)
    (hlen : ys.length = xs.length) (hy : ∀ y ∈ ys, 0 ≤ y)
    (hb : ∀ x ∈ xs, x ≤ b) :
    (List.zipWith (· * ·) ys xs).sum ≤ b * ys.sum := by
  induction ys generalizing xs with
  | nil => simp
  | cons y t ih =>
    cases xs with
    | nil => exact absurd hlen (by simp)
    | cons x u =>
      have hlen' : t.length = u.length := by simpa using hlen
      have hy0 : 0 ≤ y := hy y (List.mem_cons_self y t)
      have hx0 : x ≤ b := hb x (List.mem_cons_self x u)
      have ih' := ih u hlen' (fun z hz => hy z (List.mem_cons_of_mem y hz))
        (fun z hz => hb z (List.mem_cons_of_mem x hz))
      calc (List.zipWith (· * ·) (y :: t) (x :: u)).sum
          = y * x + (List.zipWith (· * ·) t u).sum := by simp
        _ ≤ y * b + b * t.sum := add_le_add (mul_le_mul_of_nonneg_left hx0 hy0) ih'
        _ = b * (y + t.sum) := by ring
        _ = b * ((y :: t).sum) := by simp

theorem mul_sum_le_sum_zipWith (ys xs : List α) (a : α)
    (hlen : ys.length = xs.length) (hy : ∀ y ∈ ys, 0 ≤ y)
    (ha : ∀ x ∈ xs, a ≤ x) :
    a * ys.sum ≤ (List.zipWith (· * ·) ys xs).sum := by
  induction ys generalizing xs with
  | nil => simp
  | cons y t ih =>
    cases xs with
    | nil => exact absurd hlen (by simp)
    | cons x u =>
      have hlen' : t.length = u.length := by simpa using hlen
      have hy0 : 0 ≤ y := hy y (List.mem_cons_self y t)
      have hx0 : a ≤ x := ha x (List.mem_cons_self x u)
      have ih' := ih u hlen' (fun z hz => hy z (List.mem_cons_of_mem y hz))
        (fun z hz => ha z (List.mem_cons_of_mem x hz))
      calc a * ((y :: t).sum) = y * a + a * t.sum := by simp; ring
        _ ≤ y * x + (List.zipWith (· * ·) t u).sum :=
            add_le_add (mul_le_mul_of_nonneg_left hx0 hy0) ih'
        _ = (List.zipWith (· * ·) (y :: t) (x :: u)).sum := by simp

theorem weighted_average_bounds (xs ys : List α) (a b : α)
    (hlen : ys.length = xs.length) (hy : ∀ y ∈ ys, 0 ≤ y) (hsum : 0 < ys.sum)
    (ha : ∀ x ∈ xs, a ≤ x) (hb : ∀ x ∈ xs, x ≤ b) :
    a ≤ weighted_average xs ys ∧ weighted_average xs ys ≤ b := by
  unfold weighted_average
  constructor
  · rw [le_div_iff hsum]
    exact mul_sum_le_sum_zipWith ys xs a hlen hy ha
  · rw [div_le_iff hsum]
    have h := sum_zipWith_le_mul ys xs b hlen hy hb
    linarith

theorem minmax_auto_level_le (xs ys : List α) (hs : xs.Sorted (· < ·))
    (h2 : 2 ≤ xs.length) :
    (minmax_auto_level xs ys).1 ≤ (minmax_auto_level xs ys).2 := by
  have h1 : xs.getD 0 0 < xs.getD (xs.length - 1) 0 :=
    sorted_getD_lt xs hs 0 (xs.length - 1) (by omega) (by omega)
  have hbin : xs.getD (xs.length - 2) 0 < xs.getD (xs.length - 1) 0 :=
    sorted_getD_lt xs hs (xs.length - 2) (xs.length - 1) (by omega) (by omega)
  simp only [minmax_auto_level]
  linarith

/-- Core bound for `_mean3std_auto_level`: for any non-negative `std`
candidate, both clipped bounds land inside the `_minmax_auto_level` interval
and come out ordered. -/
theorem mean3std_within (xs ys : List α) (sq : α → α)
    (hs : xs.Sorted (· < ·)) (h2 : 2 ≤ xs.length) (hlen : ys.length = xs.length)
    (hy : ∀ y ∈ ys, 0 ≤ y) (hsum : 0 < ys.sum)
    (hsq : 0 ≤ sq (weighted_variance xs ys)) :
    (minmax_auto_level xs ys).1 ≤ (mean3std_auto_level xs ys sq).1 ∧
    (mean3std_auto_level xs ys sq).1 ≤ (minmax_auto_level xs ys).2 ∧
    (minmax_auto_level xs ys).1 ≤ (mean3std_auto_level xs ys sq).2 ∧
    (mean3std_auto_level xs ys sq).2 ≤ (minmax_auto_level xs ys).2 ∧
    (mean3std_auto_level xs ys sq).1 ≤ (mean3std_auto_level xs ys sq).2 := by
  obtain ⟨hma, hmb⟩ := weighted_average_bounds xs ys (xs.getD 0 0)
    (xs.getD (xs.length - 1) 0) hlen hy hsum
    (fun x hx => (sorted_getD_bounds xs hs hx).1)
    (fun x hx => (sorted_getD_bounds xs hs hx).2)
  have hbin : xs.getD (xs.length - 2) 0 < xs.getD (xs.length - 1) 0 :=
    sorted_getD_lt xs hs (xs.length - 2) (xs.length - 1) (by omega) (by omega)
  have hlo : xs.getD 0 0 < xs.getD (xs.length - 1) 0 :=
    sorted_getD_lt xs hs 0 (xs.length - 1) (by omega) (by omega)
  simp only [mean3std_auto_level, minmax_auto_level, weighted_average_std]
  refine ⟨le_max_right _ _, max_le (by linarith) (by linarith), ?_, min_le_right _ _, ?_⟩
  · exact le_min (by linarith) (by linarith)
  · exact max_le (le_min (by linarith) (by linarith)) (le_min (by linarith) (by linarith))

/-- The last element of a strictly increasing list of naturals is its
greatest element. -/
theorem getLast?_spec_of_pairwise (l : List ℕ) (hl : l.Pairwise (· < ·)) (k : ℕ)
    (hk : l.getLast? = some k) : k ∈ l ∧ ∀ j ∈ l, j ≤ k := by
  induction l with
  | nil => simp at hk
  | cons a t ih =>
    cases t with
    | nil =>
      simp only [List.getLast?_singleton, Option.some.injEq] at hk
      subst hk
      exact ⟨List.mem_cons_self a [], fun j hj => le_of_eq (by simpa using hj)⟩
    | cons b u =>
      rw [List.getLast?_cons_cons] at hk
      have hpt : (b :: u).Pairwise (· < ·) := (List.pairwise_cons.mp hl).2
      obtain ⟨hmem, hle⟩ := ih hpt hk
      refine ⟨List.mem_cons_of_mem a hmem, ?_⟩
      intro j hj
      rcases List.mem_cons.mp hj with rfl | hj
      · have hab : j < b := (List.pairwise_cons.mp hl).1 b (List.mem_cons_self b u)
        have hbk : b ≤ k := hle b (List.mem_cons_self b u)
        omega
      · exact hle j hj

/-- Projection of `_default_auto_level` to its first component (after zeta
reduction of the `let` bindings). -/
theorem default_auto_level_fst (hist_x hist_y : List α) :
    (default_auto_level hist_x hist_y).1 =
      if 0 < (hist_x.filter (fun x => decide (0 < x))).length
      then max (mean (hist_x.take 2)) (listMin (hist_x.filter (fun x => decide (0 < x))))
      else mean (hist_x.take 2) := rfl

/-- Projection of `_default_auto_level` to its second component (after zeta
reduction of the `let` bindings). -/
theorem default_auto_level_snd (hist_x hist_y : List α) :
    (default_auto_level hist_x hist_y).2 =
      match ((List.range (cumsum hist_y).length).filter
          (fun i => decide ((cumsum hist_y).getD i 0 <
            (996 / 1000 : α) * hist_y.sum))).getLast? with
      | some i => hist_x.getD i 0
      | none => (1 / 2 : α) * listMax hist_x := rfl

/-- The minimum produced by `_default_auto_level` is the mean of the first two
edges, raised to the smallest strictly-positive edge when one exists. -/
theorem default_min_spec (hist_x hist_y : List α) (h2 : 2 ≤ hist_x.length) :
    (∃ p ∈ hist_x, 0 < p ∧ (∀ q ∈ hist_x, 0 < q → p ≤ q) ∧
        (default_auto_level hist_x hist_y).1 =
          max ((hist_x.getD 0 0 + hist_x.getD 1 0) / 2) p) ∨
    ((∀ q ∈ hist_x, ¬ (0 < q)) ∧
        (default_auto_level hist_x hist_y).1 =
          (hist_x.getD 0 0 + hist_x.getD 1 0) / 2) := by
  obtain ⟨a, b, t, rfl⟩ : ∃ a b t, hist_x = a :: b :: t := by
    match hist_x, h2 with
    | a :: b :: t, _ => exact ⟨a, b, t, rfl⟩
  have hmean : mean ((a :: b :: t).take 2) = ((a :: b :: t).getD 0 0 + (a :: b :: t).getD 1 0) / 2 := by
    simp [mean]
  rw [default_auto_level_fst, hmean]
  by_cases hpos : 0 < ((a :: b :: t).filter (fun x => decide (0 < x))).length
  · left
    have hne : (a :: b :: t).filter (fun x => decide (0 < x)) ≠ [] := by
      intro hnil
      rw [hnil] at hpos
      exact absurd hpos (by simp)
    have hmem := listMin_mem _ hne
    have hmemx : listMin ((a :: b :: t).filter (fun x => decide (0 < x))) ∈ a :: b :: t :=
      (List.mem_filter.mp hmem).1
    have hposmin : 0 < listMin ((a :: b :: t).filter (fun x => decide (0 < x))) := by
      have := (List.mem_filter.mp hmem).2
      simpa using this
    refine ⟨_, hmemx, hposmin, ?_, by rw [if_pos hpos]⟩
    intro q hq hq0
    exact listMin_le _ q (List.mem_filter.mpr ⟨hq, by simpa using hq0⟩)
  · right
    refine ⟨?_, by rw [if_neg hpos]⟩
    intro q hq hq0
    apply hpos
    have hqf : q ∈ (a :: b :: t).filter (fun x => decide (0 < x)) :=
      List.mem_filter.mpr ⟨hq, by simpa using hq0⟩
    exact List.length_pos.mpr (List.ne_nil_of_mem hqf)

/-- The maximum produced by `_default_auto_level` is the left edge of the last
bin whose cumulative count is strictly below `0.996` of the total, with the
half-of-maximum-edge fallback when every cumulative count has saturated. -/
theorem default_max_spec (hist_x hist_y : List α) (hx_ne : hist_x ≠ []) :
    (∃ k < hist_y.length,
        (hist_y.take (k + 1)).sum < (996 / 1000 : α) * hist_y.sum ∧
        (∀ j < hist_y.length,
          (hist_y.take (j + 1)).sum < (996 / 1000 : α) * hist_y.sum → j ≤ k) ∧
        (default_auto_level hist_x hist_y).2 = hist_x.getD k 0) ∨
    ((∀ j < hist_y.length,
        (996 / 1000 : α) * hist_y.sum ≤ (hist_y.take (j + 1)).sum) ∧
      ∃ M ∈ hist_x, (∀ q ∈ hist_x, q ≤ M) ∧
        (default_auto_level hist_x hist_y).2 = M / 2) := by
  have hplen : (cumsum hist_y).length = hist_y.length := cumsum_length hist_y
  have hpair : ((List.range (cumsum hist_y).length).filter
      (fun i => decide ((cumsum hist_y).getD i 0 <
        (996 / 1000 : α) * hist_y.sum))).Pairwise (· < ·) :=
    (List.pairwise_lt_range _).filter _
  rw [default_auto_level_snd]
  cases hlast : ((List.range (cumsum hist_y).length).filter
      (fun i => decide ((cumsum hist_y).getD i 0 <
        (996 / 1000 : α) * hist_y.sum))).getLast? with
  | some k =>
    left
    obtain ⟨hmem, hmax⟩ := getLast?_spec_of_pairwise _ hpair k hlast
    obtain ⟨hrange, hpk⟩ := List.mem_filter.mp hmem
    have hkn : k < hist_y.length := hplen ▸ List.mem_range.mp hrange
    have hck : (hist_y.take (k + 1)).sum < (996 / 1000 : α) * hist_y.sum := by
      have := of_decide_eq_true hpk
      rwa [cumsum_getD hist_y k hkn] at this
    refine ⟨k, hkn, hck, ?_, rfl⟩
    intro j hj hcj
    apply hmax
    refine List.mem_filter.mpr ⟨List.mem_range.mpr (hplen ▸ hj), decide_eq_true ?_⟩
    rwa [cumsum_getD hist_y j hj]
  | none =>
    right
    have hnil : (List.range (cumsum hist_y).length).filter
        (fun i => decide ((cumsum hist_y).getD i 0 <
          (996 / 1000 : α) * hist_y.sum)) = [] := by
      cases hfil : (List.range (cumsum hist_y).length).filter
          (fun i => decide ((cumsum hist_y).getD i 0 <
            (996 / 1000 : α) * hist_y.sum)) with
      | nil => rfl
      | cons c cs => rw [hfil] at hlast; simp at hlast
    constructor
    · intro j hj
      have hjr : j ∈ List.range (cumsum hist_y).length :=
        List.mem_range.mpr (hplen ▸ hj)
      have := List.filter_eq_nil_iff.mp hnil j hjr
      rw [decide_eq_true_eq, cumsum_getD hist_y j hj] at this
      exact not_lt.mp this
    · refine ⟨listMax hist_x, listMax_mem hist_x hx_ne,
        fun q hq => le_listMax hist_x q hq, ?_⟩
      ring

/-! ### Claim theorems -/

/-- **C1**: for every histogram with strictly increasing bin left edges (at
least two, as the mean-of-two-lowest-edges policy presupposes), non-negative
counts with positive total, `auto_level` in mode `'default'` returns
`(min, max)` where `min` is the mean of the two lowest edges raised to the
smallest strictly-positive edge when one exists, and `max` is the left edge of
the last bin whose cumulative count is strictly below `0.996` of the total
count, falling back to half the maximum edge value when no such bin exists. -/
theorem C1_default_mode (hist_x hist_y : List α) (sq : α → α)
    (hs : hist_x.Sorted (· < ·)) (hlen : hist_y.length = hist_x.length)
    (h2 : 2 ≤ hist_x.length) (hy : ∀ y ∈ hist_y, 0 ≤ y)
    (hsum : 0 < hist_y.sum) :
    auto_level hist_x hist_y "default" sq = some (default_auto_level hist_x hist_y) ∧
    ((∃ p ∈ hist_x, 0 < p ∧ (∀ q ∈ hist_x, 0 < q → p ≤ q) ∧
        (default_auto_level hist_x hist_y).1 =
          max ((hist_x.getD 0 0 + hist_x.getD 1 0) / 2) p) ∨
      ((∀ q ∈ hist_x, ¬ (0 < q)) ∧
        (default_auto_level hist_x hist_y).1 =
          (hist_x.getD 0 0 + hist_x.getD 1 0) / 2)) ∧
    ((∃ k < hist_y.length,
        (hist_y.take (k + 1)).sum < (996 / 1000 : α) * hist_y.sum ∧
        (∀ j < hist_y.length,
          (hist_y.take (j + 1)).sum < (996 / 1000 : α) * hist_y.sum → j ≤ k) ∧
        (default_auto_level hist_x hist_y).2 = hist_x.getD k 0) ∨
      ((∀ j < hist_y.length,
          (996 / 1000 : α) * hist_y.sum ≤ (hist_y.take (j + 1)).sum) ∧
        ∃ M ∈ hist_x, (∀ q ∈ hist_x, q ≤ M) ∧
          (default_auto_level hist_x hist_y).2 = M / 2)) := by
  have hx_ne : hist_x ≠ [] := by
    intro h
    rw [h] at h2
    simp at h2
  exact ⟨by simp [auto_level], default_min_spec hist_x hist_y h2,
    default_max_spec hist_x hist_y hx_ne⟩

/-- Witness for C1 at edges `[1, 2]`, counts `[1, 1]`. -/
theorem C1_default_mode_witness :
    (([1, 2] : List ℚ).Sorted (· < ·) ∧
      ([1, 1] : List ℚ).length = ([1, 2] : List ℚ).length ∧
      2 ≤ ([1, 2] : List ℚ).length ∧
      (∀ y ∈ ([1, 1] : List ℚ), 0 ≤ y) ∧ (0 : ℚ) < ([1, 1] : List ℚ).sum) ∧
    (auto_level ([1, 2] : List ℚ) [1, 1] "default" id =
      some (default_auto_level ([1, 2] : List ℚ) [1, 1]) ∧
    ((∃ p ∈ ([1, 2] : List ℚ), 0 < p ∧ (∀ q ∈ ([1, 2] : List ℚ), 0 < q → p ≤ q) ∧
        (default_auto_level ([1, 2] : List ℚ) [1, 1]).1 =
          max ((([1, 2] : List ℚ).getD 0 0 + ([1, 2] : List ℚ).getD 1 0) / 2) p) ∨
      ((∀ q ∈ ([1, 2] : List ℚ), ¬ (0 < q)) ∧
        (default_auto_level ([1, 2] : List ℚ) [1, 1]).1 =
          (([1, 2] : List ℚ).getD 0 0 + ([1, 2] : List ℚ).getD 1 0) / 2)) ∧
    ((∃ k < ([1, 1] : List ℚ).length,
        (([1, 1] : List ℚ).take (k + 1)).sum < (996 / 1000 : ℚ) * ([1, 1] : List ℚ).sum ∧
        (∀ j < ([1, 1] : List ℚ).length,
          (([1, 1] : List ℚ).take (j + 1)).sum < (996 / 1000 : ℚ) * ([1, 1] : List ℚ).sum →
            j ≤ k) ∧
        (default_auto_level ([1, 2] : List ℚ) [1, 1]).2 = ([1, 2] : List ℚ).getD k 0) ∨
      ((∀ j < ([1, 1] : List ℚ).length,
          (996 / 1000 : ℚ) * ([1, 1] : List ℚ).sum ≤ (([1, 1] : List ℚ).take (j + 1)).sum) ∧
        ∃ M ∈ ([1, 2] : List ℚ), (∀ q ∈ ([1, 2] : List ℚ), q ≤ M) ∧
          (default_auto_level ([1, 2] : List ℚ) [1, 1]).2 = M / 2))) := by
  refine ⟨⟨by decide, by decide, by decide, by decide, by norm_num⟩, ?_⟩
  exact C1_default_mode ([1, 2] : List ℚ) [1, 1] id (by decide) (by decide)
    (by decide) (by decide) (by norm_num)

/-- **C4**: for every histogram with strictly increasing edges (at least two,
as required by the source's `hist_x[-2]` access), `auto_level` in mode
`'minmax'` returns `(firstEdge, lastEdge + binWidth)` with
`binWidth = lastEdge − secondToLastEdge`; the witness instantiates this at
edges `[0, 1, 2, 3]`, giving `(0, 4)` and not `(0, 3)`. -/
theorem C4_minmax_mode (xs ys : List α) (sq : α → α)
    (hs : xs.Sorted (· < ·)) (h2 : 2 ≤ xs.length) :
    auto_level xs ys "minmax" sq =
      some (xs.headD 0, xs.getLastD 0 + (xs.getLastD 0 - xs.dropLast.getLastD 0)) := by
  have hroute : auto_level xs ys "minmax" sq = some (minmax_auto_level xs ys) := by
    simp [auto_level]
  rw [hroute, headD_eq_getD, getLastD_eq_getD, dropLast_getLastD_eq_getD xs h2]
  rfl

/-- Witness for C4 at edges `[0,1,2,3]`: the histogram-form `minmax` result is
`(0, 4)`, not `(0, 3)`. -/
theorem C4_minmax_mode_witness :
    (([0, 1, 2, 3] : List ℚ).Sorted (· < ·) ∧ 2 ≤ ([0, 1, 2, 3] : List ℚ).length) ∧
    auto_level ([0, 1, 2, 3] : List ℚ) [1, 1, 1, 1] "minmax" id = some (0, 4) := by
  refine ⟨⟨by decide, by decide⟩, ?_⟩
  have h := C4_minmax_mode ([0, 1, 2, 3] : List ℚ) [1, 1, 1, 1] id (by decide) (by decide)
  rw [h]
  norm_num

/-- **C2** counterexample: in mode `'default'` the histogram
`edges = [1, 2]`, `counts = [1, 1]` (strictly increasing edges, non-negative
counts, positive total) produces `(3/2, 1)` — an inverted pair, refuting
`lo ≤ hi` for mode `'default'`. -/
theorem C2_counterexample :
    auto_level ([1, 2] : List ℚ) [1, 1] "default" id = some (3 / 2, 1) ∧
    ¬ ((3 / 2 : ℚ) ≤ 1) := by
  constructor
  · norm_num [auto_level, default_auto_level, cumsum, cumsumAux, mean, listMin,
      listMax, List.range_succ, max_def]
  · norm_num

/-- **C2** (amended): modes `'minmax'` and `'mean3std'` return an ordered
pair `lo ≤ hi` on every histogram with strictly increasing edges (at least
two), matching counts, non-negative counts with positive total, and a
non-negative standard-deviation value; mode `'default'` can invert the pair
(see the counterexample). -/
theorem C2_auto_level_ordered (xs ys : List α) (sq : α → α) (mode : String)
    (hs : xs.Sorted (· < ·)) (h2 : 2 ≤ xs.length) (hlen : ys.length = xs.length)
    (hy : ∀ y ∈ ys, 0 ≤ y) (hsum : 0 < ys.sum)
    (hsq : 0 ≤ sq (weighted_variance xs ys))
    (hmode : mode = "minmax" ∨ mode = "mean3std")
    (r : α × α) (hr : auto_level xs ys mode sq = some r) :
    r.1 ≤ r.2 := by
  rcases hmode with rfl | rfl
  · have hr' : minmax_auto_level xs ys = r := by
      simpa [auto_level] using hr
    rw [← hr']
    exact minmax_auto_level_le xs ys hs h2
  · have hr' : mean3std_auto_level xs ys sq = r := by
      simpa [auto_level] using hr
    rw [← hr']
    exact (mean3std_within xs ys sq hs h2 hlen hy hsum hsq).2.2.2.2

/-- Witness for C2 (amended) at edges `[0,2]`, counts `[1,1]`, mode
`'minmax'`. -/
theorem C2_auto_level_ordered_witness :
    (([0, 2] : List ℚ).Sorted (· < ·) ∧ (0 : ℚ) < ([1, 1] : List ℚ).sum ∧
      (0 : ℚ) ≤ id (weighted_variance ([0, 2] : List ℚ) [1, 1]) ∧
      auto_level ([0, 2] : List ℚ) [1, 1] "minmax" id = some (0, 4)) ∧
    (0 : ℚ) ≤ 4 := by
  have hvar : (0 : ℚ) ≤ id (weighted_variance ([0, 2] : List ℚ) [1, 1]) := by
    norm_num [weighted_variance, weighted_average]
  have hr : auto_level ([0, 2] : List ℚ) [1, 1] "minmax" id = some (0, 4) := by
    have hroute : auto_level ([0, 2] : List ℚ) [1, 1] "minmax" id =
        some (minmax_auto_level ([0, 2] : List ℚ) [1, 1]) := by
      simp [auto_level]
    rw [hroute]
    norm_num [minmax_auto_level]
  refine ⟨⟨by decide, by norm_num, hvar, hr⟩, ?_⟩
  exact C2_auto_level_ordered ([0, 2] : List ℚ) [1, 1] id "minmax" (by decide)
    (by decide) (by decide) (by decide) (by norm_num) hvar (Or.inl rfl)
    (0, 4) hr

/-- **C5**: for every histogram with strictly increasing edges (at least two)
and positive total count, `auto_level` in mode `'mean3std'` (with `np.sqrt`
instantiated by `Real.sqrt`) returns the weighted mean of the edges minus
resp. plus three times the weighted standard deviation, each bound clipped to
the histogram-form minmax interval — and consequently both components of the
result lie within that `[min, max]` interval. -/
theorem C5_mean3std_mode (hist_x hist_y : List ℝ)
    (hs : hist_x.Sorted (· < ·)) (h2 : 2 ≤ hist_x.length)
    (hlen : hist_y.length = hist_x.length)
    (hy : ∀ y ∈ hist_y, 0 ≤ y) (hsum : 0 < hist_y.sum) :
    auto_level hist_x hist_y "mean3std" Real.sqrt =
      some (mean3std_auto_level hist_x hist_y Real.sqrt) ∧
    mean3std_auto_level hist_x hist_y Real.sqrt =
      (max (weighted_average hist_x hist_y -
          3 * Real.sqrt (weighted_variance hist_x hist_y))
        (minmax_auto_level hist_x hist_y).1,
       min (weighted_average hist_x hist_y +
          3 * Real.sqrt (weighted_variance hist_x hist_y))
        (minmax_auto_level hist_x hist_y).2) ∧
    ((minmax_auto_level hist_x hist_y).1 ≤
        (mean3std_auto_level hist_x hist_y Real.sqrt).1 ∧
      (mean3std_auto_level hist_x hist_y Real.sqrt).1 ≤
        (minmax_auto_level hist_x hist_y).2 ∧
      (minmax_auto_level hist_x hist_y).1 ≤
        (mean3std_auto_level hist_x hist_y Real.sqrt).2 ∧
      (mean3std_auto_level hist_x hist_y Real.sqrt).2 ≤
        (minmax_auto_level hist_x hist_y).2) := by
  have hw := mean3std_within hist_x hist_y Real.sqrt hs h2 hlen hy hsum
    (Real.sqrt_nonneg _)
  exact ⟨by simp [auto_level], rfl, hw.1, hw.2.1, hw.2.2.1, hw.2.2.2.1⟩

/-- Witness for C5 at edges `[0, 2]`, counts `[1, 1]` (weighted mean `1`,
weighted variance `1`, hence standard deviation `1`). -/
theorem C5_mean3std_mode_witness :
    (([0, 2] : List ℝ).Sorted (· < ·) ∧ 2 ≤ ([0, 2] : List ℝ).length ∧
      ([1, 1] : List ℝ).length = ([0, 2] : List ℝ).length ∧
      (∀ y ∈ ([1, 1] : List ℝ), 0 ≤ y) ∧ (0 : ℝ) < ([1, 1] : List ℝ).sum) ∧
    (auto_level ([0, 2] : List ℝ) [1, 1] "mean3std" Real.sqrt =
      some (mean3std_auto_level ([0, 2] : List ℝ) [1, 1] Real.sqrt) ∧
    mean3std_auto_level ([0, 2] : List ℝ) [1, 1] Real.sqrt =
      (max (weighted_average ([0, 2] : List ℝ) [1, 1] -
          3 * Real.sqrt (weighted_variance ([0, 2] : List ℝ) [1, 1]))
        (minmax_auto_level ([0, 2] : List ℝ) [1, 1]).1,
       min (weighted_average ([0, 2] : List ℝ) [1, 1] +
          3 * Real.sqrt (weighted_variance ([0, 2] : List ℝ) [1, 1]))
        (minmax_auto_level ([0, 2] : List ℝ) [1, 1]).2) ∧
    ((minmax_auto_level ([0, 2] : List ℝ) [1, 1]).1 ≤
        (mean3std_auto_level ([0, 2] : List ℝ) [1, 1] Real.sqrt).1 ∧
      (mean3std_auto_level ([0, 2] : List ℝ) [1, 1] Real.sqrt).1 ≤
        (minmax_auto_level ([0, 2] : List ℝ) [1, 1]).2 ∧
      (minmax_auto_level ([0, 2] : List ℝ) [1, 1]).1 ≤
        (mean3std_auto_level ([0, 2] : List ℝ) [1, 1] Real.sqrt).2 ∧
      (mean3std_auto_level ([0, 2] : List ℝ) [1, 1] Real.sqrt).2 ≤
        (minmax_auto_level ([0, 2] : List ℝ) [1, 1]).2)) := by
  refine ⟨⟨?_, by norm_num, by norm_num, by norm_num, by norm_num⟩, ?_⟩
  · simp [List.sorted_cons]
  · exact C5_mean3std_mode ([0, 2] : List ℝ) [1, 1]
      (by simp [List.sorted_cons]) (by norm_num) (by norm_num) (by norm_num)
      (by norm_num)

open DialogState in
/-- **C7**: for `a < b` (starting from any state whose stored range differs
from `(a, b)`), `setRange(a, b)` and `setRange(b, a)` produce the identical
state — the inverted pair is swapped before storing, never an error — with
stored range `(a, b)` and exactly one `sigRangeChanged` emission each; and
`setRange(x, x)` applied twice in a row (from any state whose stored range
differs from `(x, x)`) emits exactly once, the second call being a no-op. -/
theorem C7_setRange (s : DialogState α) (a b x : α) (hab : a < b)
    (hne : getRange s ≠ (a, b)) (hnex : getRange s ≠ (x, x)) :
    setRange s a b = setRange s b a ∧
    getRange (setRange s a b) = (a, b) ∧
    (setRange s a b).sigRange = s.sigRange ++ [(a, b)] ∧
    setRange (setRange s x x) x x = setRange s x x ∧
    (setRange s x x).sigRange = s.sigRange ++ [(x, x)] := by
  have hba : ¬ (b < a) := not_lt.mpr (le_of_lt hab)
  have hne' : ¬ ((a, b) = getRange s) := fun h => hne h.symm
  have hnex' : ¬ ((x, x) = getRange s) := fun h => hnex h.symm
  have hab' : setRange s a b =
      { s with
          minText := some a
          maxText := some b
          sigRange := s.sigRange ++ [(a, b)] } := by
    simp only [setRange, if_neg hba, if_neg hne']
  have hba' : setRange s b a =
      { s with
          minText := some a
          maxText := some b
          sigRange := s.sigRange ++ [(a, b)] } := by
    simp only [setRange, if_pos hab, if_neg hne']
  have hxx : setRange s x x =
      { s with
          minText := some x
          maxText := some x
          sigRange := s.sigRange ++ [(x, x)] } := by
    simp only [setRange, if_neg (lt_irrefl x), if_neg hnex']
  refine ⟨hab'.trans hba'.symm, ?_, ?_, ?_, ?_⟩
  · rw [hab']; rfl
  · rw [hab']
  · rw [hxx]
    simp [setRange, DialogState.getRange]
  · rw [hxx]

/-- Witness for C7 from the freshly constructed dialog (stored range `(1, 1)`)
with `a = 2`, `b = 3`, `x = 5`. -/
theorem C7_setRange_witness :
    ((2 : ℚ) < 3 ∧ DialogState.getRange (DialogState.init ℚ []) ≠ ((2 : ℚ), 3) ∧
      DialogState.getRange (DialogState.init ℚ []) ≠ ((5 : ℚ), 5)) ∧
    (DialogState.setRange (DialogState.init ℚ []) 2 3 =
        DialogState.setRange (DialogState.init ℚ []) 3 2 ∧
      DialogState.getRange (DialogState.setRange (DialogState.init ℚ []) 2 3) = (2, 3) ∧
      (DialogState.setRange (DialogState.init ℚ []) 2 3).sigRange =
        (DialogState.init ℚ []).sigRange ++ [((2 : ℚ), 3)] ∧
      DialogState.setRange (DialogState.setRange (DialogState.init ℚ []) 5 5) 5 5 =
        DialogState.setRange (DialogState.init ℚ []) 5 5 ∧
      (DialogState.setRange (DialogState.init ℚ []) 5 5).sigRange =
        (DialogState.init ℚ []).sigRange ++ [((5 : ℚ), 5)]) := by
  refine ⟨⟨by norm_num, ?_, ?_⟩, ?_⟩
  · intro h
    have h1 := congrArg Prod.fst h
    norm_num [DialogState.getRange, DialogState.init] at h1
  · intro h
    have h1 := congrArg Prod.fst h
    norm_num [DialogState.getRange, DialogState.init] at h1
  · apply C7_setRange (DialogState.init ℚ []) 2 3 5 (by norm_num)
    · intro h
      have h1 := congrArg Prod.fst h
      norm_num [DialogState.getRange, DialogState.init] at h1
    · intro h
      have h1 := congrArg Prod.fst h
      norm_num [DialogState.getRange, DialogState.init] at h1

/-- **C8** counterexample: a range-editor state whose two texts parse to `5`
and `3` makes `getRange` return the inverted pair `(5, 3)`, refuting the
claim's "a well-ordered numeric pair is always returned". -/
theorem C8_counterexample :
    DialogState.getRange
        { DialogState.init ℚ [] with minText := some 5, maxText := some 3 } =
      (5, 3) ∧
    ¬ ((5 : ℚ) ≤ 3) := by
  exact ⟨rfl, by norm_num⟩

/-- **C8** (amended): `getRange` is total (it never raises — the model is a
total function): an unparseable minimum text falls back to `1` and an
unparseable maximum text falls back to the minimum, so a numeric pair is
always returned; that pair is ordered whenever the maximum text is
unparseable, but both texts parsing to inverted values yields an inverted
pair (see the counterexample). -/
theorem C8_getRange_fallback (s : DialogState α) :
    (s.minText = none → (DialogState.getRange s).1 = 1) ∧
    (s.maxText = none → (DialogState.getRange s).2 = (DialogState.getRange s).1) := by
  unfold DialogState.getRange
  cases hmin : s.minText <;> cases hmax : s.maxText <;> simp

/-- Witness for C8 (amended) at the freshly constructed dialog, whose two
texts are both unparseable (empty). -/
theorem C8_getRange_fallback_witness :
    ((DialogState.init ℚ []).minText = none ∧
      (DialogState.init ℚ []).maxText = none) ∧
    ((DialogState.getRange (DialogState.init ℚ [])).1 = 1 ∧
      (DialogState.getRange (DialogState.init ℚ [])).2 =
        (DialogState.getRange (DialogState.init ℚ [])).1) := by
  refine ⟨⟨rfl, rfl⟩, ?_, ?_⟩
  · exact (C8_getRange_fallback (DialogState.init ℚ [])).1 rfl
  · exact (C8_getRange_fallback (DialogState.init ℚ [])).2 rfl

theorem setCurrentIndex_fst {β : Type} (c : ComboBox β) (i : ℕ) :
    ((c.setCurrentIndex (i : Int)).1).currentData = (c.items.get? i).map (·.data) ∧
    ((c.setCurrentIndex (i : Int)).1).items = c.items := by
  unfold ComboBox.setCurrentIndex ComboBox.currentData
  by_cases hcur : (i : Int) = c.currentIndex
  · rw [if_pos hcur]
    refine ⟨?_, rfl⟩
    dsimp only
    rw [if_pos (hcur ▸ Int.natCast_nonneg i), ← hcur, Int.toNat_natCast]
  · rw [if_neg hcur]
    refine ⟨?_, rfl⟩
    dsimp only
    rw [if_pos (Int.natCast_nonneg i), Int.toNat_natCast]

theorem setCurrentNormalization_valid_aux (s : DialogState α) (name : String) (i : ℕ)
    (hfd : s.normalizationCombo.findData name = (i : ℕ))
    (hget : (s.normalizationCombo.items.get? i).map (·.data) = some name) :
    ∃ t, DialogState.setCurrentNormalization s name = Except.ok t ∧
      DialogState.getCurrentNormalization t = some name := by
  unfold DialogState.setCurrentNormalization
  rw [hfd, if_neg (by omega : ¬ ((i : ℕ) : Int) < 0)]
  refine ⟨_, rfl, ?_⟩
  unfold DialogState.getCurrentNormalization DialogState.routeNormalization
  dsimp only
  rw [(setCurrentIndex_fst s.normalizationCombo i).1, hget]

/-- **C10**: `setCurrentNormalization` raises a `ValueError` on every
normalization name outside `{linear, log, sqrt, arcsinh}` and then leaves the
selection (whole state) unchanged; on every name inside that set it succeeds
and `getCurrentNormalization` subsequently returns that name; the freshly
constructed dialog starts at `'linear'`. -/
theorem C10_setCurrentNormalization (presets : List (String × Gradient))
    (s : DialogState α) (name : String)
    (hitems : s.normalizationCombo.items = DialogState.normalizationItems) :
    (name ∉ (["linear", "log", "sqrt", "arcsinh"] : List String) →
      DialogState.setCurrentNormalization s name =
        Except.error ("Unsupported normalization: " ++ name) ∧
      DialogState.setCurrentNormalizationStep s name = s) ∧
    (name ∈ (["linear", "log", "sqrt", "arcsinh"] : List String) →
      ∃ t, DialogState.setCurrentNormalization s name = Except.ok t ∧
        DialogState.getCurrentNormalization t = some name) ∧
    DialogState.getCurrentNormalization (DialogState.init α presets) = some "linear" := by
  refine ⟨?_, ?_, rfl⟩
  · intro hmem
    have h1 : ¬ (("linear" : String) = name) := by
      intro h
      exact hmem (by rw [← h]; simp)
    have h2 : ¬ (("log" : String) = name) := by
      intro h
      exact hmem (by rw [← h]; simp)
    have h3 : ¬ (("sqrt" : String) = name) := by
      intro h
      exact hmem (by rw [← h]; simp)
    have h4 : ¬ (("arcsinh" : String) = name) := by
      intro h
      exact hmem (by rw [← h]; simp)
    have hfd : s.normalizationCombo.findData name = -1 := by
      unfold ComboBox.findData
      rw [hitems]
      simp [DialogState.normalizationItems, List.findIdx?_cons, h1, h2, h3, h4]
    have herr : DialogState.setCurrentNormalization s name =
        Except.error ("Unsupported normalization: " ++ name) := by
      unfold DialogState.setCurrentNormalization
      rw [hfd]
      rfl
    refine ⟨herr, ?_⟩
    unfold DialogState.setCurrentNormalizationStep
    rw [herr]
  · intro hmem
    have hcases : name = "linear" ∨ name = "log" ∨ name = "sqrt" ∨ name = "arcsinh" := by
      simpa using hmem
    rcases hcases with rfl | rfl | rfl | rfl
    · refine setCurrentNormalization_valid_aux s _ 0 ?_ ?_
      · unfold ComboBox.findData
        rw [hitems]
        simp [DialogState.normalizationItems, List.findIdx?_cons]
      · rw [hitems]; rfl
    · refine setCurrentNormalization_valid_aux s _ 1 ?_ ?_
      · unfold ComboBox.findData
        rw [hitems]
        simp [DialogState.normalizationItems, List.findIdx?_cons]
      · rw [hitems]; rfl
    · refine setCurrentNormalization_valid_aux s _ 2 ?_ ?_
      · unfold ComboBox.findData
        rw [hitems]
        simp [DialogState.normalizationItems, List.findIdx?_cons]
      · rw [hitems]; rfl
    · refine setCurrentNormalization_valid_aux s _ 3 ?_ ?_
      · unfold ComboBox.findData
        rw [hitems]
        simp [DialogState.normalizationItems, List.findIdx?_cons]
      · rw [hitems]; rfl

/-- Witness for C10: on the freshly constructed dialog, `'log'` is accepted
and re-read, and the initial normalization is `'linear'`. -/
theorem C10_setCurrentNormalization_witness :
    (DialogState.init ℚ []).normalizationCombo.items = DialogState.normalizationItems ∧
    ("log" : String) ∈ (["linear", "log", "sqrt", "arcsinh"] : List String) ∧
    (∃ t, DialogState.setCurrentNormalization (DialogState.init ℚ []) "log" = Except.ok t ∧
      DialogState.getCurrentNormalization t = some "log") ∧
    DialogState.getCurrentNormalization (DialogState.init ℚ []) = some "linear" := by
  have h := C10_setCurrentNormalization ([] : List (String × Gradient))
    (DialogState.init ℚ []) "log" rfl
  exact ⟨rfl, by decide, h.2.1 (by decide), h.2.2⟩

/-- **C6**: `auto_level` with any mode string outside
`{default, minmax, mean3std}` raises a `ValueError` unconditionally, and a
reset request hitting that error leaves the dialog state — in particular the
stored range — unchanged (the raise happens before `setRange` runs). -/
theorem C6_unsupported_mode (mode : String) (xs ys : List α) (sq : α → α)
    (s : DialogState α) (hg : List α × List α)
    (h1 : mode ≠ "default") (h2 : mode ≠ "minmax") (h3 : mode ≠ "mean3std") :
    auto_level xs ys mode sq = none ∧
    (s.histogram = some hg → s.modeCombo.currentData = some mode →
      DialogState.autoscaleRequested s sq =
        Except.error ("Unsupported mode: " ++ mode) ∧
      DialogState.autoscaleStep s sq = s ∧
      DialogState.getRange (DialogState.autoscaleStep s sq) =
        DialogState.getRange s) := by
  have hal : ∀ (xs' ys' : List α), auto_level xs' ys' mode sq = none := by
    intro xs' ys'
    unfold auto_level
    rw [if_neg h1, if_neg h2, if_neg h3]
  refine ⟨hal xs ys, ?_⟩
  intro hh hm
  have herr : DialogState.autoscaleRequested s sq =
      Except.error ("Unsupported mode: " ++ mode) := by
    simp only [DialogState.autoscaleRequested, hh, hm, hal]
  have hstep : DialogState.autoscaleStep s sq = s := by
    unfold DialogState.autoscaleStep
    rw [herr]
  exact ⟨herr, hstep, by rw [hstep]⟩

/-- A dialog state holding a histogram together with a hypothetical reset-mode
entry carrying the unsupported mode string `"bogus"`, used to exercise the
error path of a reset request. -/
def bogusModeState : DialogState ℚ :=
  { DialogState.init ℚ [] with
      histogram := some ([1], [1])
      modeCombo := { items := [⟨"Bogus", "bogus"⟩], currentIndex := 0, blocked := false } }

/-- Witness for C6 with mode `"bogus"`. -/
theorem C6_unsupported_mode_witness :
    (("bogus" : String) ≠ "default" ∧ ("bogus" : String) ≠ "minmax" ∧
      ("bogus" : String) ≠ "mean3std" ∧
      bogusModeState.histogram = some ([1], [1]) ∧
      bogusModeState.modeCombo.currentData = some "bogus") ∧
    (auto_level ([1] : List ℚ) [1] "bogus" id = none ∧
      DialogState.autoscaleRequested bogusModeState id =
        Except.error ("Unsupported mode: " ++ "bogus") ∧
      DialogState.autoscaleStep bogusModeState id = bogusModeState ∧
      DialogState.getRange (DialogState.autoscaleStep bogusModeState id) =
        DialogState.getRange bogusModeState) := by
  have h := C6_unsupported_mode "bogus" ([1] : List ℚ) [1] id bogusModeState
    ([1], [1]) (by decide) (by decide) (by decide)
  exact ⟨⟨by decide, by decide, by decide, rfl, rfl⟩, h.1, h.2 rfl rfl⟩

/-- `setCurrentGradient` on a descriptor matching no preset: one `'Custom'`
entry is inserted at index 0 and selected, with exactly one
`sigCurrentGradientChanged` emission. -/
theorem setCurrentGradient_unmatched (presets : List (String × Gradient))
    (s : DialogState α) (d : Gradient)
    (hb : s.gradientCombo.blocked = false)
    (hi : 0 ≤ s.gradientCombo.currentIndex)
    (hne : s.gradientCombo.items ≠ [])
    (hno : ∀ p ∈ presets, ¬ (d.mode = p.2.mode ∧ d.ticks = p.2.ticks)) :
    DialogState.setCurrentGradient presets s d =
      { s with
          gradientCombo :=
            { items := ⟨"Custom", d⟩ :: s.gradientCombo.items
              currentIndex := 0
              blocked := false }
          sigGradient := s.sigGradient ++ [d] } := by
  have hfind : presets.find?
      (fun p => decide (d.mode = p.2.mode ∧ d.ticks = p.2.ticks)) = none := by
    rw [List.find?_eq_none]
    intro p hp
    simpa using hno p hp
  have hie : s.gradientCombo.items.isEmpty = false := by
    rw [List.isEmpty_eq_false]
    exact hne
  have hnz : ¬ ((0 : Int) = s.gradientCombo.currentIndex + 1) := by omega
  unfold DialogState.setCurrentGradient
  rw [hfind]
  simp only [ComboBox.insertItemAtZero, hie, Bool.false_eq_true, if_false, hi, if_true,
    if_pos trivial]
  simp only [DialogState.routeGradient, ComboBox.setCurrentIndex, ComboBox.itemData, hb]
  rw [if_neg hnz]
  simp [List.filterMap]

open DialogState in
/-- **C3** (amended): two successive `setCurrentGradient` calls with
descriptors matching no preset each *insert a fresh* `'Custom'` entry at
index 0 (the second call does not replace the first one): afterwards the
registry holds the two Custom entries in front of the previous items, the
newest is selected, each call emitted exactly one gradient-changed event, and
`getCurrentGradient` returns the latest descriptor.  In particular the
registry does hold two Custom entries, not one. -/
theorem C3_two_unmatched_customs (presets : List (String × Gradient))
    (s : DialogState α) (d1 d2 : Gradient)
    (hb : s.gradientCombo.blocked = false)
    (hi : 0 ≤ s.gradientCombo.currentIndex)
    (hne : s.gradientCombo.items ≠ [])
    (hno1 : ∀ p ∈ presets, ¬ (d1.mode = p.2.mode ∧ d1.ticks = p.2.ticks))
    (hno2 : ∀ p ∈ presets, ¬ (d2.mode = p.2.mode ∧ d2.ticks = p.2.ticks)) :
    (setCurrentGradient presets (setCurrentGradient presets s d1) d2).gradientCombo.items =
      ⟨"Custom", d2⟩ :: ⟨"Custom", d1⟩ :: s.gradientCombo.items ∧
    (setCurrentGradient presets (setCurrentGradient presets s d1) d2).gradientCombo.currentIndex = 0 ∧
    customCount (setCurrentGradient presets (setCurrentGradient presets s d1) d2) =
      customCount s + 2 ∧
    (setCurrentGradient presets (setCurrentGradient presets s d1) d2).sigGradient =
      s.sigGradient ++ [d1, d2] ∧
    getCurrentGradient (setCurrentGradient presets (setCurrentGradient presets s d1) d2) =
      some d2 := by
  have h1 := setCurrentGradient_unmatched presets s d1 hb hi hne hno1
  rw [h1]
  have h2 := setCurrentGradient_unmatched presets
    { s with
        gradientCombo :=
          { items := ⟨"Custom", d1⟩ :: s.gradientCombo.items
            currentIndex := 0
            blocked := false }
        sigGradient := s.sigGradient ++ [d1] } d2 rfl (by norm_num) (by simp) hno2
  rw [h2]
  refine ⟨rfl, rfl, ?_, by simp, rfl⟩
  simp [customCount, List.filter]

/-- The preset table used in the concrete C3/C9 scenarios: a stand-in for the
pyqtgraph `Gradients` table with two entries. -/
def presetTableExample : List (String × Gradient) :=
  [("grey", ⟨"rgb", [(0, (0, 0, 0, 255)), (1, (255, 255, 255, 255))]⟩),
   ("viridis", ⟨"rgb", [(0, (68, 1, 84, 255)), (1, (253, 231, 37, 255))]⟩)]

/-- First unmatched descriptor (mirrors `customGradient` of the repository's
`testCustomGradient`). -/
def customGradientA : Gradient :=
  ⟨"rgb", [(0, (0, 0, 0, 255)), (1, (0, 0, 0, 255))]⟩

/-- Second unmatched descriptor (mirrors `customGradient2` of the repository's
`testCustomGradient`). -/
def customGradientB : Gradient :=
  ⟨"rgb", [(0, (255, 255, 255, 255)), (1, (255, 255, 255, 255))]⟩

/-- **C3** counterexample: two successive unmatched descriptors leave *two*
`'Custom'` entries in the gradient registry, not exactly one — the second call
inserts a new entry instead of replacing the first. -/
theorem C3_counterexample :
    DialogState.customCount
        (DialogState.setCurrentGradient presetTableExample
          (DialogState.setCurrentGradient presetTableExample
            (DialogState.init ℚ presetTableExample) customGradientA)
          customGradientB) = 2 ∧
    ¬ DialogState.customCount
        (DialogState.setCurrentGradient presetTableExample
          (DialogState.setCurrentGradient presetTableExample
            (DialogState.init ℚ presetTableExample) customGradientA)
          customGradientB) = 1 := by
  constructor
  · decide
  · decide

/-- Witness for C3 (amended) on the concrete two-preset table and the two
unmatched descriptors of the repository's own test. -/
theorem C3_two_unmatched_customs_witness :
    ((DialogState.init ℚ presetTableExample).gradientCombo.blocked = false ∧
      0 ≤ (DialogState.init ℚ presetTableExample).gradientCombo.currentIndex ∧
      (DialogState.init ℚ presetTableExample).gradientCombo.items ≠ [] ∧
      (∀ p ∈ presetTableExample,
        ¬ (customGradientA.mode = p.2.mode ∧ customGradientA.ticks = p.2.ticks)) ∧
      (∀ p ∈ presetTableExample,
        ¬ (customGradientB.mode = p.2.mode ∧ customGradientB.ticks = p.2.ticks))) ∧
    (DialogState.customCount
        (DialogState.setCurrentGradient presetTableExample
          (DialogState.setCurrentGradient presetTableExample
            (DialogState.init ℚ presetTableExample) customGradientA)
          customGradientB) =
      DialogState.customCount (DialogState.init ℚ presetTableExample) + 2 ∧
    DialogState.getCurrentGradient
        (DialogState.setCurrentGradient presetTableExample
          (DialogState.setCurrentGradient presetTableExample
            (DialogState.init ℚ presetTableExample) customGradientA)
          customGradientB) = some customGradientB) := by
  have h := C3_two_unmatched_customs presetTableExample
    (DialogState.init ℚ presetTableExample) customGradientA customGradientB
    (by decide) (by decide) (by decide) (by decide) (by decide)
  exact ⟨⟨by decide, by decide, by decide, by decide, by decide⟩,
    h.2.2.1, h.2.2.2.2⟩

/-! ### `List.findIdx?` support lemmas for the matched-gradient path -/

theorem findIdx?_start_shift {β : Type} (p : β → Bool) (l : List β) (i : ℕ) :
    l.findIdx? p i = (l.findIdx? p).map (· + i) := by
  induction l generalizing i with
  | nil => rfl
  | cons a t ih =>
    rw [List.findIdx?_cons, List.findIdx?_cons]
    cases hpa : p a with
    | true => simp
    | false =>
      simp only [Bool.false_eq_true, if_false]
      rw [ih (i + 1), ih 1, Option.map_map]
      congr 1
      funext k
      simp only [Function.comp_apply]
      omega

theorem findIdx?_append_of_false {β : Type} (l₁ l₂ : List β) (p : β → Bool)
    (h : ∀ x ∈ l₁, p x = false) :
    (l₁ ++ l₂).findIdx? p = (l₂.findIdx? p).map (· + l₁.length) := by
  induction l₁ with
  | nil => simp
  | cons a t ih =>
    rw [List.cons_append, List.findIdx?_cons, h a (List.mem_cons_self a t)]
    simp only [Bool.false_eq_true, if_false]
    rw [findIdx?_start_shift p (t ++ l₂) (0 + 1),
      ih (fun x hx => h x (List.mem_cons_of_mem a hx)), Option.map_map]
    congr 1

theorem findIdx?_map_comp {β γ : Type} (f : γ → β) (l : List γ) (p : β → Bool) :
    (l.map f).findIdx? p = l.findIdx? (fun x => p (f x)) := by
  induction l with
  | nil => rfl
  | cons a t ih =>
    rw [List.map_cons, List.findIdx?_cons, List.findIdx?_cons]
    cases hpa : p (f a) with
    | true => simp [hpa]
    | false =>
      simp only [hpa, Bool.false_eq_true, if_false]
      rw [findIdx?_start_shift p (List.map f t) (0 + 1),
        findIdx?_start_shift (fun x => p (f x)) t (0 + 1), ih]

theorem findIdx?_some_spec {β : Type} (l : List β) (p : β → Bool) (i : ℕ)
    (h : l.findIdx? p = some i) :
    ∃ hi : i < l.length, p (l.get ⟨i, hi⟩) = true := by
  induction l generalizing i with
  | nil => simp at h
  | cons a t ih =>
    rw [List.findIdx?_cons] at h
    cases hpa : p a with
    | true =>
      rw [hpa, if_pos rfl] at h
      injection h with h
      subst h
      exact ⟨by simp, by simpa using hpa⟩
    | false =>
      rw [hpa] at h
      simp only [Bool.false_eq_true, if_false] at h
      rw [findIdx?_start_shift] at h
      obtain ⟨i', hi', hii⟩ := Option.map_eq_some'.mp h
      obtain ⟨hlt, hp⟩ := ih i' hi'
      subst hii
      exact ⟨by simpa using Nat.succ_lt_succ hlt, by simpa using hp⟩

theorem findIdx?_isSome_of_exists {β : Type} (l : List β) (p : β → Bool)
    (x : β) (hx : x ∈ l) (hp : p x = true) : ∃ i, l.findIdx? p = some i := by
  cases h : l.findIdx? p with
  | some i => exact ⟨i, rfl⟩
  | none =>
    rw [List.findIdx?_eq_none_iff] at h
    rw [h x hx] at hp
    exact absurd hp (by simp)

theorem routeGradient_sig (s : DialogState α) (c : ComboBox Gradient)
    (idxs : List Int) :
    (DialogState.routeGradient s c idxs).sigGradient =
      s.sigGradient ++ idxs.filterMap (fun i => c.itemData i) := rfl

theorem routeGradient_items (s : DialogState α) (c : ComboBox Gradient)
    (idxs : List Int) :
    (DialogState.routeGradient s c idxs).gradientCombo.items = c.items := rfl

theorem getCurrentGradient_routeGradient (s : DialogState α)
    (c : ComboBox Gradient) (idxs : List Int) :
    DialogState.getCurrentGradient (DialogState.routeGradient s c idxs) =
      c.currentData := rfl

theorem setCurrentIndex_snd {β : Type} (c : ComboBox β) (i : Int) :
    (c.setCurrentIndex i).2 = [] ∨ (c.setCurrentIndex i).2 = [i] := by
  unfold ComboBox.setCurrentIndex
  by_cases heq : i = c.currentIndex
  · rw [if_pos heq]
    left
    rfl
  · rw [if_neg heq]
    cases hbv : c.blocked
    · right
      simp
    · left
      simp

theorem itemData_eq_of_items_eq {β : Type} (c c' : ComboBox β)
    (h : c.items = c'.items) (i : Int) : c.itemData i = c'.itemData i := by
  unfold ComboBox.itemData
  rw [h]

open DialogState in
/-- **C9**: a gradient descriptor structurally equal (same `mode` and full
`ticks` sequence) to a registered preset selects that preset:
`setCurrentGradient` leaves the registry contents unchanged (no new entry),
emits `sigCurrentGradientChanged` at most once, and `getCurrentGradient`
afterwards returns a descriptor structurally equal to the argument.  The
hypotheses describe any reachable registry: the preset items, added with
pairwise-distinct capitalized names none of which is `'Custom'`, preceded by
transient `'Custom'` entries. -/
theorem C9_setCurrentGradient_matched (presets : List (String × Gradient))
    (s : DialogState α) (g : Gradient) (cs : List (ComboItem Gradient))
    (nm : String) (q : Gradient)
    (hitems : s.gradientCombo.items =
      cs ++ presets.map (fun p => ⟨p.1.capitalize, p.2⟩))
    (hcs : ∀ c ∈ cs, c.text = "Custom")
    (hnodup : (presets.map (fun p => p.1.capitalize)).Nodup)
    (hnocustom : ∀ p ∈ presets, p.1.capitalize ≠ "Custom")
    (hfind : presets.find?
      (fun p => decide (g.mode = p.2.mode ∧ g.ticks = p.2.ticks)) = some (nm, q)) :
    (setCurrentGradient presets s g).gradientCombo.items = s.gradientCombo.items ∧
    getCurrentGradient (setCurrentGradient presets s g) = some g ∧
    ((setCurrentGradient presets s g).sigGradient = s.sigGradient ∨
      (setCurrentGradient presets s g).sigGradient = s.sigGradient ++ [g]) := by
  have hpq : q = g := by
    have hp := List.find?_some hfind
    simp only [decide_eq_true_eq] at hp
    cases q
    cases g
    simp_all
  have hmemp : (nm, q) ∈ presets := List.mem_of_find?_eq_some hfind
  have hcapne : nm.capitalize ≠ "Custom" := hnocustom (nm, q) hmemp
  obtain ⟨j0, hj0, hj0eq⟩ := List.mem_iff_getElem.mp hmemp
  obtain ⟨j, hj⟩ := findIdx?_isSome_of_exists presets
    (fun p => decide (p.1.capitalize = nm.capitalize)) (nm, q) hmemp (by simp)
  obtain ⟨hjl, hjp⟩ := findIdx?_some_spec presets _ j hj
  have hjeq : presets[j] = (nm, q) := by
    have hjlm : j < (presets.map (fun p => p.1.capitalize)).length := by
      simpa using hjl
    have hj0m : j0 < (presets.map (fun p => p.1.capitalize)).length := by
      simpa using hj0
    have h1 : (presets.map (fun p => p.1.capitalize))[j] = nm.capitalize := by
      rw [List.getElem_map]
      exact of_decide_eq_true hjp
    have h2 : (presets.map (fun p => p.1.capitalize))[j0] = nm.capitalize := by
      rw [List.getElem_map, hj0eq]
    have hjj : j = j0 := (List.Nodup.getElem_inj_iff hnodup).mp (h1.trans h2.symm)
    subst hjj
    exact hj0eq
  have hcsfalse : ∀ c ∈ cs,
      (fun it : ComboItem Gradient => decide (it.text = nm.capitalize)) c = false := by
    intro c hc
    simp only [hcs c hc]
    exact decide_eq_false (fun h => hcapne h.symm)
  have hfidx : s.gradientCombo.items.findIdx?
      (fun it => decide (it.text = nm.capitalize)) = some (j + cs.length) := by
    rw [hitems, findIdx?_append_of_false _ _ _ hcsfalse, findIdx?_map_comp]
    dsimp only
    rw [hj]
    rfl
  have hlen2 : j + cs.length < s.gradientCombo.items.length := by
    rw [hitems, List.length_append, List.length_map]
    omega
  have hitem : s.gradientCombo.items.get? (j + cs.length) =
      some ⟨nm.capitalize, q⟩ := by
    rw [List.get?_eq_getElem?, List.getElem?_eq_getElem hlen2]
    congr 1
    rw [List.getElem_of_eq hitems hlen2,
      List.getElem_append_right (Nat.le_add_left cs.length j)]
    simp only [Nat.add_sub_cancel, List.getElem_map, hjeq]
  have hft : s.gradientCombo.findText nm.capitalize = ((j + cs.length : ℕ) : Int) := by
    unfold ComboBox.findText
    rw [hfidx]
  have hred : setCurrentGradient presets s g =
      routeGradient s (s.gradientCombo.setCurrentText nm.capitalize).1
        (s.gradientCombo.setCurrentText nm.capitalize).2 := by
    unfold DialogState.setCurrentGradient
    rw [hfind]
  have hsct : s.gradientCombo.setCurrentText nm.capitalize =
      s.gradientCombo.setCurrentIndex ((j + cs.length : ℕ) : Int) := by
    unfold ComboBox.setCurrentText
    rw [hft, if_pos (Int.natCast_nonneg _)]
  obtain ⟨hcd, hitems'⟩ := setCurrentIndex_fst s.gradientCombo (j + cs.length)
  rw [hred, hsct]
  refine ⟨?_, ?_, ?_⟩
  · rw [routeGradient_items]
    exact hitems'
  · rw [getCurrentGradient_routeGradient, hcd, hitem]
    simp [hpq]
  · rw [routeGradient_sig]
    rcases setCurrentIndex_snd s.gradientCombo ((j + cs.length : ℕ) : Int) with h2 | h2
    · left
      rw [h2]
      simp
    · right
      rw [h2]
      have hid : ((s.gradientCombo.setCurrentIndex ((j + cs.length : ℕ) : Int)).1).itemData
          ((j + cs.length : ℕ) : Int) = some g := by
        rw [itemData_eq_of_items_eq _ s.gradientCombo hitems']
        unfold ComboBox.itemData
        rw [if_pos (Int.natCast_nonneg _), Int.toNat_natCast, hitem]
        simp [hpq]
      simp only [List.filterMap_cons, List.filterMap_nil, hid]

/-- The descriptor of the second preset of `presetTableExample`, used to
exercise the structural-match path. -/
def viridisGradient : Gradient :=
  ⟨"rgb", [(0, (68, 1, 84, 255)), (1, (253, 231, 37, 255))]⟩

/-- Witness for C9: on the freshly constructed dialog over the two-preset
table, a descriptor structurally equal to the `viridis` preset selects it
without touching the registry. -/
theorem C9_setCurrentGradient_matched_witness :
    ((DialogState.init ℚ presetTableExample).gradientCombo.items =
        [] ++ presetTableExample.map (fun p => ⟨p.1.capitalize, p.2⟩) ∧
      (∀ c ∈ ([] : List (ComboItem Gradient)), c.text = "Custom") ∧
      (presetTableExample.map (fun p => p.1.capitalize)).Nodup ∧
      (∀ p ∈ presetTableExample, p.1.capitalize ≠ "Custom") ∧
      presetTableExample.find?
        (fun p => decide (viridisGradient.mode = p.2.mode ∧
          viridisGradient.ticks = p.2.ticks)) = some ("viridis", viridisGradient)) ∧
    ((DialogState.setCurrentGradient presetTableExample
        (DialogState.init ℚ presetTableExample) viridisGradient).gradientCombo.items =
      (DialogState.init ℚ presetTableExample).gradientCombo.items ∧
    DialogState.getCurrentGradient
        (DialogState.setCurrentGradient presetTableExample
          (DialogState.init ℚ presetTableExample) viridisGradient) =
      some viridisGradient ∧
    ((DialogState.setCurrentGradient presetTableExample
        (DialogState.init ℚ presetTableExample) viridisGradient).sigGradient =
        (DialogState.init ℚ presetTableExample).sigGradient ∨
      (DialogState.setCurrentGradient presetTableExample
        (DialogState.init ℚ presetTableExample) viridisGradient).sigGradient =
        (DialogState.init ℚ presetTableExample).sigGradient ++ [viridisGradient])) := by
  refine ⟨⟨rfl, by simp, by decide, by decide, by decide⟩, ?_⟩
  exact C9_setCurrentGradient_matched presetTableExample
    (DialogState.init ℚ presetTableExample) viridisGradient []
    "viridis" viridisGradient rfl (by simp) (by decide) (by decide) (by decide)

end Dioptas
